import Mathlib

/-!
A shallow embedding of the ai-messenger backend (database.py and server.py).

Conventions:
- Timestamps are naturals (abstract clock values); every call that reads the
  wall clock in Python takes the current time as an explicit `now` argument.
- SQLite tables become Lean lists of row structures; `AUTOINCREMENT` ids are
  modelled as max-so-far + 1.
- The random salt of hash_password and the random session token of login_user
  become explicit arguments.
- PBKDF2-HMAC-SHA256 with 100000 iterations is abstracted as an arbitrary
  key-derivation function of type Kdf (password bytes and salt bytes to the
  hex digest characters); byte/hex strings handled by the hashing code are
  lists of characters, other strings are Lean Strings.
- ORDER BY created_at DESC is modelled as a stable merge sort on the
  created_at key (SQLite leaves the relative order of ties unspecified; the
  theorems only rely on sortedness and permutation).
- The activity_logs table is not modelled: no claim mentions it, and
  log_activity failures are swallowed by the source.
-/

abbrev Kdf := List Char → List Char → List Char

/-- Mirrors Python str.split for the single-character separator, as used by
verify_password: stored_hash.split on the dollar sign. -/
def splitDollar : List Char → List (List Char)
  | [] => [[]]
  | c :: cs =>
    if c = '$' then [] :: splitDollar cs
    else
      match splitDollar cs with
      | [] => [[c]]
      | h :: t => (c :: h) :: t

/-- database.py hash_password: salt and derived hash joined by a dollar sign.
The random salt (secrets.token_hex) is an explicit argument. -/
def hash_password (kdf : Kdf) (salt password : List Char) : List Char :=
  salt ++ '$' :: kdf password salt

/-- database.py verify_password: split the stored value at the dollar sign,
re-derive from the stored salt and compare.  Any unpacking failure (not
exactly two parts) is caught and returns False. -/
def verify_password (kdf : Kdf) (stored password : List Char) : Bool :=
  match splitDollar stored with
  | [salt, hashVal] => kdf password salt == hashVal
  | _ => false

/-- A row of the users table (schema in init_db). -/
structure UserRow where
  id : Nat
  username : String
  password_hash : List Char
  email : Option String
  created_at : Nat
  last_login : Option Nat
  is_active : Bool
deriving DecidableEq

/-- A row of the messages table (schema in init_db). -/
structure MessageRow where
  id : Nat
  sender_id : Nat
  recipient_id : Nat
  message : String
  is_read : Bool
  read_at : Option Nat
  created_at : Nat
deriving DecidableEq

/-- A row of the sessions table (schema in init_db). -/
structure SessionRow where
  id : Nat
  user_id : Nat
  token : String
  created_at : Nat
  expires_at : Option Nat
  is_valid : Bool
deriving DecidableEq

/-- The database state: the three tables the claims are about. -/
structure DB where
  users : List UserRow
  messages : List MessageRow
  sessions : List SessionRow
deriving DecidableEq

def nextUserId (db : DB) : Nat :=
  db.users.foldr (fun u acc => max u.id acc) 0 + 1

def nextSessionId (db : DB) : Nat :=
  db.sessions.foldr (fun s acc => max s.id acc) 0 + 1

/-- The UNIQUE constraint on users.email: multiple NULL emails are allowed
by SQLite, so only a present email can collide. -/
def dupEmailCheck (db : DB) (email : Option String) : Bool :=
  match email with
  | some e => db.users.any (fun u => u.email == some e)
  | none => false

/-- database.py register_user: a bare INSERT; the UNIQUE constraints on
username and email raise sqlite3.IntegrityError, which the source catches and
reports as a duplicate username (there is no pre-check). -/
def register_user (kdf : Kdf) (salt : List Char) (db : DB)
    (username password : String) (email : Option String) (now : Nat) :
    (Bool × String) × DB :=
  let password_hash := hash_password kdf salt password.toList
  if db.users.any (fun u => u.username == username) || dupEmailCheck db email then
    ((false, "Username already exists"), db)
  else
    ((true, "User registered successfully"),
     { db with
        users := db.users ++
          [{ id := nextUserId db, username, password_hash, email,
             created_at := now, last_login := none, is_active := true }] })

/-- database.py login_user: looks up an active user by username, verifies the
password, updates last_login and inserts a fresh session row.  A duplicate
token violates the UNIQUE constraint on sessions.token before the commit, so
the except branch returns failure with the state unchanged. -/
def login_user (kdf : Kdf) (db : DB) (username password : String)
    (now : Nat) (newToken : String) : (Bool × String × Option String) × DB :=
  match db.users.find? (fun u => u.username == username && u.is_active) with
  | none => ((false, "Invalid credentials", none), db)
  | some u =>
    if verify_password kdf u.password_hash password.toList then
      if db.sessions.any (fun s => s.token == newToken) then
        ((false, "UNIQUE constraint failed: sessions.token", none), db)
      else
        ((true, "Login successful", some newToken),
         { db with
            users := db.users.map (fun x =>
              if x.id == u.id then { x with last_login := some now } else x),
            sessions := db.sessions ++
              [{ id := nextSessionId db, user_id := u.id, token := newToken,
                 created_at := now, expires_at := none, is_valid := true }] })
    else ((false, "Invalid credentials", none), db)

/-- A JSON-ish scalar, for modelling sqlite3.Row column access. -/
inductive ColVal where
  | num : Nat → ColVal
  | str : String → ColVal
deriving DecidableEq

/-- The row produced by the SELECT in verify_session_token: it selects only
the id and username columns of the users table. -/
structure SessionUser where
  id : Nat
  username : String
deriving DecidableEq

/-- Column access on the row returned by verify_session_token.  sqlite3.Row
raises IndexError for a column that was not part of the SELECT, modelled here
as none. -/
def SessionUser.col (u : SessionUser) : String → Option ColVal
  | "id" => some (.num u.id)
  | "username" => some (.str u.username)
  | _ => none

/-- database.py verify_session_token: find a valid session for the token,
then load the owning user's id and username.  Note that is_active is not
consulted.  If the session exists but the user row does not, the source
returns (True, None). -/
def verify_session_token (db : DB) (token : String) : Bool × Option SessionUser :=
  match db.sessions.find? (fun s => s.token == token && s.is_valid) with
  | some s =>
    match db.users.find? (fun u => u.id == s.user_id) with
    | some u => (true, some ⟨u.id, u.username⟩)
    | none => (true, none)
  | none => (false, none)

/-- database.py get_user_by_username: lookup with no is_active filter. -/
def get_user_by_username (db : DB) (username : String) : Option UserRow :=
  db.users.find? (fun u => u.username == username)

/-- Python str.strip on the ASCII whitespace of this model. -/
def pyStrip (s : String) : String :=
  ⟨((s.toList.dropWhile Char.isWhitespace).reverse.dropWhile Char.isWhitespace).reverse⟩

inductive SignupResp where
  | ok (message : String)
  | err (error : String)
deriving DecidableEq

/-- server.py signup endpoint: presence and length validation, then
register_user; duplicates surface as HTTP 400. -/
def signup (kdf : Kdf) (salt : List Char) (db : DB)
    (username password : String) (email : Option String) (now : Nat) :
    (Nat × SignupResp) × DB :=
  let uname := pyStrip username
  let pw := pyStrip password
  let mail := match email with
    | some e => if pyStrip e = "" then none else some (pyStrip e)
    | none => none
  if uname = "" ∨ pw = "" then
    ((400, .err "Username and password required"), db)
  else if pw.length < 6 then
    ((400, .err "Password must be at least 6 characters"), db)
  else if uname.length < 3 then
    ((400, .err "Username must be at least 3 characters"), db)
  else
    match register_user kdf salt db uname pw mail now with
    | ((true, message), db2) => ((201, .ok message), db2)
    | ((false, message), db2) => ((400, .err message), db2)

inductive LoginResp where
  | ok (message : String) (token : Option String) (user_id : Nat) (username : String)
  | err (error : String)
deriving DecidableEq

/-- server.py login endpoint.  On login_user success the user id for the
response body is re-fetched with get_user_by_username; if that unexpectedly
returned None the subscription would raise and the except branch answers 500
(body abstracted). -/
def login (kdf : Kdf) (db : DB) (username password : String)
    (now : Nat) (newToken : String) : (Nat × LoginResp) × DB :=
  let uname := pyStrip username
  let pw := pyStrip password
  if uname = "" ∨ pw = "" then
    ((400, .err "Username and password required"), db)
  else
    match login_user kdf db uname pw now newToken with
    | ((true, message, t), db2) =>
      match get_user_by_username db2 uname with
      | some urow => ((200, .ok message t urow.id uname), db2)
      | none => ((500, .err "internal error"), db2)
    | ((false, message, _), db2) => ((401, .err message), db2)

/-- The WHERE clause of the unread-inbox query in get_messages. -/
def unreadRows (db : DB) (uid : Nat) : List MessageRow :=
  db.messages.filter (fun m => m.recipient_id == uid && !m.is_read)

/-- The WHERE clause of the two conversation queries. -/
def conversationRows (db : DB) (a b : Nat) : List MessageRow :=
  db.messages.filter (fun m =>
    (m.sender_id == a && m.recipient_id == b) ||
    (m.sender_id == b && m.recipient_id == a))

def senderOf (db : DB) (m : MessageRow) : Option UserRow :=
  db.users.find? (fun u => u.id == m.sender_id)

/-- The inner JOIN with users on sender_id: rows whose sender id does not
resolve are dropped. -/
def joinSender (db : DB) (rows : List MessageRow) : List (MessageRow × String) :=
  rows.filterMap (fun m => (senderOf db m).map (fun u => (m, u.username)))

/-- ORDER BY created_at DESC, as a deterministic stable sort. -/
def newestFirst (rows : List (MessageRow × String)) : List (MessageRow × String) :=
  rows.mergeSort (fun a b => decide (b.1.created_at ≤ a.1.created_at))

structure MsgEntry where
  id : Nat
  sender : String
  message : String
  timestamp : Nat
deriving DecidableEq

inductive GetMessagesResp where
  | msgs (messages : List MsgEntry)
  | err (error : String)
deriving DecidableEq

/-- server.py get_messages endpoint: the unread inbox, newest first; a pure
read (only SELECTs are executed), so the state comes back unchanged. -/
def get_messages (db : DB) (token : String) : (Nat × GetMessagesResp) × DB :=
  match verify_session_token db token with
  | (false, _) => ((401, .err "Unauthorized - Invalid or expired token"), db)
  | (true, none) => ((500, .err "internal error"), db)
  | (true, some u) =>
    let rows := newestFirst (joinSender db (unreadRows db u.id))
    ((200, .msgs (rows.map (fun r => ⟨r.1.id, r.2, r.1.message, r.1.created_at⟩))), db)

inductive MarkReadResp where
  | ok
  | err (error : String)
deriving DecidableEq

/-- server.py mark_read endpoint: an unconditional UPDATE restricted by
id AND recipient_id, then an unconditional success answer — the source never
inspects how many rows matched. -/
def mark_read (db : DB) (message_id : Nat) (token : String) (now : Nat) :
    (Nat × MarkReadResp) × DB :=
  match verify_session_token db token with
  | (false, _) => ((401, .err "Unauthorized"), db)
  | (true, none) => ((500, .err "internal error"), db)
  | (true, some u) =>
    ((200, .ok),
     { db with
        messages := db.messages.map (fun m =>
          if m.id == message_id && m.recipient_id == u.id then
            { m with is_read := true, read_at := some now }
          else m) })

structure ConvEntry where
  id : Nat
  sender : String
  is_own_message : Bool
  message : String
  is_read : Bool
  timestamp : Nat
deriving DecidableEq

inductive ConvResp where
  | conv (conversation : List ConvEntry) (total_messages : Nat) (has_more : Bool)
  | err (error : String)
deriving DecidableEq

/-- server.py get_conversation_v2 endpoint: a COUNT without the join, a
joined page newest-first with LIMIT/OFFSET, reversed to oldest-first in the
response; has_more compares offset + limit against the count.  A pure read. -/
def get_conversation_v2 (db : DB) (recipient_username token : String)
    (limit offset : Nat) : Nat × ConvResp :=
  match verify_session_token db token with
  | (false, _) => (401, .err "Unauthorized")
  | (true, none) => (500, .err "internal error")
  | (true, some u) =>
    match get_user_by_username db recipient_username with
    | none => (404, .err "User not found")
    | some r =>
      let total := (conversationRows db u.id r.id).length
      let page :=
        ((newestFirst (joinSender db (conversationRows db u.id r.id))).drop offset).take limit
      let entries := page.map (fun x =>
        ⟨x.1.id, x.2, x.2 == u.username, x.1.message, x.1.is_read, x.1.created_at⟩)
      (200, .conv entries.reverse total (decide (offset + limit < total)))

inductive ProfileResp where
  | ok (id username email created_at last_login : ColVal)
  | err (error : String)
deriving DecidableEq

/-- server.py get_user_profile endpoint: builds the body by subscripting the
row returned by verify_session_token with id, username, email, created_at and
last_login; a missing column raises and the except branch answers 500. -/
def get_user_profile (db : DB) (token : String) : Nat × ProfileResp :=
  match verify_session_token db token with
  | (false, _) => (401, .err "Unauthorized")
  | (true, none) => (500, .err "internal error")
  | (true, some u) =>
    match u.col "id", u.col "username", u.col "email",
          u.col "created_at", u.col "last_login" with
    | some i, some un, some em, some ca, some ll => (200, .ok i un em ca ll)
    | _, _, _, _, _ => (500, .err "internal error")

/-! Concrete states and a concrete key-derivation function, used by the
witnesses and counterexamples. -/

def tKdf : Kdf := fun p s => p ++ s

def emptyDB : DB := ⟨[], [], []⟩

/-- alice(1), bob(2), carol(3); carol holds session token tC; one unread
message from alice to bob. -/
def dbA : DB :=
  { users :=
      [⟨1, "alice", ['h'], none, 0, none, true⟩,
       ⟨2, "bob", ['h'], none, 0, none, true⟩,
       ⟨3, "carol", ['h'], none, 0, none, true⟩],
    messages := [⟨1, 1, 2, "hi", false, none, 10⟩],
    sessions := [⟨1, 3, "tC", 0, none, true⟩] }

/-- alice(1), bob(2); bob holds session token tB; the message from alice to
bob is already read, with read_at 3. -/
def dbB : DB :=
  { users :=
      [⟨1, "alice", ['h'], none, 0, none, true⟩,
       ⟨2, "bob", ['h'], none, 0, none, true⟩],
    messages := [⟨1, 1, 2, "hi", true, some 3, 10⟩],
    sessions := [⟨1, 2, "tB", 0, none, true⟩] }

/-- alice(1), bob(2); alice holds session token tA; two messages in the
alice-bob conversation with distinct timestamps, the one to alice unread. -/
def dbC : DB :=
  { users :=
      [⟨1, "alice", ['h'], none, 0, none, true⟩,
       ⟨2, "bob", ['h'], none, 0, none, true⟩],
    messages :=
      [⟨1, 1, 2, "hi", false, none, 10⟩,
       ⟨2, 2, 1, "yo", false, none, 20⟩],
    sessions := [⟨1, 1, "tA", 0, none, true⟩] }

/-- alice(1) with a real stored hash for secret1 under tKdf. -/
def dbE : DB :=
  { users := [⟨1, "alice", hash_password tKdf "sa".toList "secret1".toList,
               none, 0, none, true⟩],
    messages := [],
    sessions := [] }

/-- alice(1) deactivated but still holding the valid session token tA. -/
def dbF : DB :=
  { users := [⟨1, "alice", ['h'], none, 0, none, false⟩],
    messages := [],
    sessions := [⟨1, 1, "tA", 0, none, true⟩] }

/-! Helper lemmas. -/

theorem splitDollar_no_dollar {b : List Char} (h : '$' ∉ b) : splitDollar b = [b] := by
  induction b with
  | nil => rfl
  | cons c cs ih =>
    have hc : ¬ c = '$' := fun e => h (by simp [e])
    have hcs : '$' ∉ cs := fun hm => h (List.mem_cons_of_mem _ hm)
    simp [splitDollar, hc, ih hcs]

theorem splitDollar_append_dollar {a b : List Char} (h : '$' ∉ a) :
    splitDollar (a ++ '$' :: b) = a :: splitDollar b := by
  induction a with
  | nil => simp [splitDollar]
  | cons c cs ih =>
    have hc : ¬ c = '$' := fun e => h (by simp [e])
    have hcs : '$' ∉ cs := fun hm => h (List.mem_cons_of_mem _ hm)
    simp [splitDollar, hc, ih hcs]

/-- find? returns the unique member satisfying the predicate. -/
theorem find_mem_unique {α : Type} {p : α → Bool} {a : α} :
    ∀ {l : List α}, a ∈ l → p a = true → (∀ b ∈ l, p b = true → b = a) →
      l.find? p = some a := by
  intro l
  induction l with
  | nil => intro h; cases h
  | cons x xs ih =>
    intro hmem hpa huniq
    by_cases hx : p x = true
    · rw [List.find?_cons_of_pos _ hx]
      exact congrArg some (huniq x (List.mem_cons_self x xs) hx)
    · rw [List.find?_cons_of_neg _ (by simpa using hx)]
      rcases List.mem_cons.mp hmem with rfl | hmem2
      · exact absurd hpa hx
      · exact ih hmem2 hpa (fun b hb hpb => huniq b (List.mem_cons_of_mem x hb) hpb)

/-- When every sender id resolves, the inner join keeps exactly the message
rows, in order. -/
theorem joinSender_map_fst (db : DB) :
    ∀ {rows : List MessageRow}, (∀ m ∈ rows, (senderOf db m).isSome = true) →
      (joinSender db rows).map Prod.fst = rows := by
  intro rows
  induction rows with
  | nil => intro _; rfl
  | cons m rest ih =>
    intro h
    have hm := h m (List.mem_cons_self m rest)
    obtain ⟨u, hu⟩ := Option.isSome_iff_exists.mp hm
    have hrest := fun x hx => h x (List.mem_cons_of_mem m hx)
    simp [joinSender, List.filterMap_cons, hu]
    exact ih hrest

theorem newestFirst_perm (l : List (MessageRow × String)) : (newestFirst l).Perm l :=
  List.mergeSort_perm l _

theorem newestFirst_pairwise (l : List (MessageRow × String)) :
    (newestFirst l).Pairwise (fun a b => b.1.created_at ≤ a.1.created_at) := by
  have h := @List.sorted_mergeSort (MessageRow × String)
    (fun a b => decide (b.1.created_at ≤ a.1.created_at))
    (fun a b c hab hbc => by
      simp only [decide_eq_true_eq] at *
      omega)
    (fun a b => by
      simp only [Bool.or_eq_true, decide_eq_true_eq]
      omega) l
  exact h.imp (fun hab => by simpa using hab)

/-! Claim theorems. -/

/-- Claim C9: verifying a password against its own freshly derived stored
hash succeeds: verify_password splits the stored value at the dollar sign,
re-derives from the stored salt, and matches; the stored value is the salt
together with the derived hash (the salt and hex digest produced by the
source contain no dollar sign). -/
theorem verify_password_roundtrip (kdf : Kdf) (salt password : List Char)
    (hs : '$' ∉ salt) (hk : '$' ∉ kdf password salt) :
    verify_password kdf (hash_password kdf salt password) password = true := by
  unfold verify_password hash_password
  rw [splitDollar_append_dollar hs, splitDollar_no_dollar hk]
  simp

theorem verify_password_roundtrip_witness :
    ('$' ∉ "sa".toList) ∧ ('$' ∉ tKdf "pw".toList "sa".toList) ∧
    verify_password tKdf (hash_password tKdf "sa".toList "pw".toList) "pw".toList = true :=
  ⟨by decide, by decide, verify_password_roundtrip tKdf _ _ (by decide) (by decide)⟩

/-- Claim C1 counterexample: carol is neither sender nor recipient of
message 1 (alice to bob), yet mark_read with carol's token answers HTTP 200
success instead of failing with an error; the message itself is untouched. -/
theorem mark_read_by_non_recipient_reports_success :
    (mark_read dbA 1 "tC" 99).1 = (200, MarkReadResp.ok) ∧
    (mark_read dbA 1 "tC" 99).2 = dbA := by decide

/-- Claim C1 (amended): when the caller resolved from the token is not the
recipient of any message with the given id, mark_read answers HTTP 200
success and leaves the state — in particular is_read and read_at of every
message — unchanged: a silent no-op, not an error. -/
theorem mark_read_non_recipient_silent_noop (db : DB) (mid : Nat)
    (token : String) (now : Nat) (u : SessionUser)
    (hver : verify_session_token db token = (true, some u))
    (hnot : ∀ m ∈ db.messages, m.id = mid → m.recipient_id ≠ u.id) :
    mark_read db mid token now = ((200, .ok), db) := by
  have hmap : db.messages.map (fun m =>
      if m.id == mid && m.recipient_id == u.id then
        { m with is_read := true, read_at := some now }
      else m) = db.messages := by
    conv_rhs => rw [← List.map_id db.messages]
    apply List.map_congr_left
    intro m hm
    have hcond : ¬ (m.id == mid && m.recipient_id == u.id) = true := by
      simp only [Bool.and_eq_true, beq_iff_eq]
      rintro ⟨h1, h2⟩
      exact hnot m hm h1 h2
    rw [if_neg hcond]
    rfl
  unfold mark_read
  rw [hver]
  dsimp only
  rw [hmap]

theorem mark_read_non_recipient_silent_noop_witness :
    mark_read dbA 1 "tC" 99 = ((200, .ok), dbA) :=
  mark_read_non_recipient_silent_noop dbA 1 "tC" 99 ⟨3, "carol"⟩ (by decide) (by decide)

/-- Claim C2 counterexample: message 1 of dbB is already read with
read_at 3; bob marking it read again at time 7 is answered with success, but
read_at is overwritten to 7, so the state does not stay unchanged. -/
theorem mark_read_read_again_mutates_state :
    (mark_read dbB 1 "tB" 7).1 = (200, MarkReadResp.ok) ∧
    (mark_read dbB 1 "tB" 7).2.messages = [⟨1, 1, 2, "hi", true, some 7, 10⟩] ∧
    (mark_read dbB 1 "tB" 7).2 ≠ dbB := by decide

/-- Claim C2 (amended): marking an already-read message read again by its
recipient answers success and keeps is_read true, but the UPDATE overwrites
read_at with the time of the repeated call instead of preserving the
original read_at. -/
theorem mark_read_read_again_overwrites_read_at (db : DB) (mid : Nat)
    (token : String) (now : Nat) (u : SessionUser) (m : MessageRow)
    (hver : verify_session_token db token = (true, some u))
    (hm : m ∈ db.messages) (hid : m.id = mid) (hrec : m.recipient_id = u.id)
    (_hread : m.is_read = true) :
    (mark_read db mid token now).1 = (200, .ok) ∧
    { m with is_read := true, read_at := some now } ∈
      (mark_read db mid token now).2.messages := by
  unfold mark_read
  rw [hver]
  dsimp only
  refine ⟨rfl, ?_⟩
  have hcond : (m.id == mid && m.recipient_id == u.id) = true := by
    simp [hid, hrec]
  refine List.mem_map.mpr ⟨m, hm, ?_⟩
  rw [if_pos hcond]

theorem mark_read_read_again_overwrites_read_at_witness :
    (mark_read dbB 1 "tB" 7).1 = (200, .ok) ∧
    (⟨1, 1, 2, "hi", true, some 7, 10⟩ : MessageRow) ∈ (mark_read dbB 1 "tB" 7).2.messages :=
  mark_read_read_again_overwrites_read_at dbB 1 "tB" 7 ⟨2, "bob"⟩
    ⟨1, 1, 2, "hi", true, some 3, 10⟩ (by decide) (by decide) rfl rfl rfl

/-- Claim C3: for every valid session token, get_user_profile answers
HTTP 500, never the claimed 200 profile — the row loaded by
verify_session_token carries only the id and username columns, so the
endpoint's access to the email column raises. -/
theorem get_user_profile_returns_500_on_valid_token (db : DB) (token : String)
    (u : SessionUser) (hver : verify_session_token db token = (true, some u)) :
    (get_user_profile db token).1 = 500 := by
  unfold get_user_profile
  rw [hver]
  rfl

theorem get_user_profile_returns_500_on_valid_token_witness :
    (get_user_profile dbC "tA").1 = 500 :=
  get_user_profile_returns_500_on_valid_token dbC "tA" ⟨1, "alice"⟩ (by decide)

/-- login_user fails with the generic message when the password is wrong. -/
theorem login_user_wrong_password (kdf : Kdf) (db : DB) (n p : String)
    (now : Nat) (tk : String) (u : UserRow)
    (hu : db.users.find? (fun x => x.username == n && x.is_active) = some u)
    (hpw : verify_password kdf u.password_hash p.toList = false) :
    login_user kdf db n p now tk = ((false, "Invalid credentials", none), db) := by
  have hpw2 : verify_password kdf u.password_hash p.data = false := hpw
  simp [login_user, hu, hpw2]

/-- login_user fails with the generic message when no active user matches. -/
theorem login_user_unknown_user (kdf : Kdf) (db : DB) (n p : String)
    (now : Nat) (tk : String)
    (hno : db.users.find? (fun x => x.username == n && x.is_active) = none) :
    login_user kdf db n p now tk = ((false, "Invalid credentials", none), db) := by
  simp [login_user, hno]

/-- Claim C8: a login that fails because the password is wrong and a login
that fails because the username does not exist produce byte-identical
responses — HTTP 401 with the body error "Invalid credentials" — and leave
the state unchanged, so the two runs are indistinguishable and usernames
cannot be enumerated. -/
theorem login_failure_indistinguishable (kdf : Kdf) (db : DB)
    (n1 p1 n2 p2 : String) (now : Nat) (tk : String) (u : UserRow)
    (ht1 : pyStrip n1 = n1) (ht2 : pyStrip n2 = n2)
    (hq1 : pyStrip p1 = p1) (hq2 : pyStrip p2 = p2)
    (hn1 : n1 ≠ "") (hn2 : n2 ≠ "") (hp1 : p1 ≠ "") (hp2 : p2 ≠ "")
    (hu : db.users.find? (fun x => x.username == n1 && x.is_active) = some u)
    (hpw : verify_password kdf u.password_hash p1.toList = false)
    (hno : db.users.find? (fun x => x.username == n2 && x.is_active) = none) :
    login kdf db n1 p1 now tk = ((401, .err "Invalid credentials"), db) ∧
    login kdf db n2 p2 now tk = ((401, .err "Invalid credentials"), db) := by
  have e1 := login_user_wrong_password kdf db n1 p1 now tk u hu hpw
  have e2 := login_user_unknown_user kdf db n2 p2 now tk hno
  constructor
  · simp [login, ht1, hq1, hn1, hp1, e1]
  · simp [login, ht2, hq2, hn2, hp2, e2]

theorem login_failure_indistinguishable_witness :
    login tKdf dbE "alice" "wrong1" 0 "tk" = ((401, .err "Invalid credentials"), dbE) ∧
    login tKdf dbE "nobody" "pw1" 0 "tk" = ((401, .err "Invalid credentials"), dbE) :=
  login_failure_indistinguishable tKdf dbE "alice" "wrong1" "nobody" "pw1" 0 "tk"
    ⟨1, "alice", hash_password tKdf "sa".toList "secret1".toList, none, 0, none, true⟩
    (by decide) (by decide) (by decide) (by decide) (by decide) (by decide)
    (by decide) (by decide) (by decide) (by decide) (by decide)

/-- Claim C10: a deactivated user's previously issued valid session still
resolves — verify_session_token filters sessions on is_valid only and loads
the user without consulting is_active — while login for that user fails,
because only login_user's query filters on is_active = 1. -/
theorem deactivated_user_session_still_resolves (kdf : Kdf) (db : DB)
    (t : String) (s : SessionRow) (u : UserRow) (p : String) (now : Nat) (tk : String)
    (htok : (db.sessions.map (fun x => x.token)).Nodup)
    (hids : (db.users.map (fun x => x.id)).Nodup)
    (hnames : (db.users.map (fun x => x.username)).Nodup)
    (hs : s ∈ db.sessions) (hst : s.token = t) (hsv : s.is_valid = true)
    (hu : u ∈ db.users) (hui : u.id = s.user_id) (hua : u.is_active = false) :
    verify_session_token db t = (true, some ⟨u.id, u.username⟩) ∧
    login_user kdf db u.username p now tk = ((false, "Invalid credentials", none), db) := by
  constructor
  · have hfind : db.sessions.find? (fun x => x.token == t && x.is_valid) = some s := by
      apply find_mem_unique hs
      · simp [hst, hsv]
      · intro b hb hpb
        have hbt : b.token = t := by
          simp only [Bool.and_eq_true, beq_iff_eq] at hpb
          exact hpb.1
        exact List.inj_on_of_nodup_map htok hb hs (by rw [hbt, hst])
    have hfind2 : db.users.find? (fun x => x.id == s.user_id) = some u := by
      apply find_mem_unique hu
      · simp [hui]
      · intro b hb hpb
        have hbid : b.id = s.user_id := by simpa using hpb
        exact List.inj_on_of_nodup_map hids hb hu (by rw [hbid, hui])
    unfold verify_session_token
    rw [hfind]
    dsimp only
    rw [hfind2]
  · have hnone : db.users.find? (fun x => x.username == u.username && x.is_active) = none := by
      rw [List.find?_eq_none]
      intro x hx
      simp only [Bool.and_eq_true, beq_iff_eq, not_and]
      intro hxu
      have hxeq : x = u := List.inj_on_of_nodup_map hnames hx hu hxu
      rw [hxeq, hua]
      simp
    exact login_user_unknown_user kdf db u.username p now tk hnone

theorem deactivated_user_session_still_resolves_witness :
    verify_session_token dbF "tA" = (true, some ⟨1, "alice"⟩) ∧
    login_user tKdf dbF "alice" "pw" 0 "tk" = ((false, "Invalid credentials", none), dbF) :=
  deactivated_user_session_still_resolves tKdf dbF "tA"
    ⟨1, 1, "tA", 0, none, true⟩ ⟨1, "alice", ['h'], none, 0, none, false⟩ "pw" 0 "tk"
    (by decide) (by decide) (by decide) (by decide) rfl rfl (by decide) rfl rfl

theorem dupEmailCheck_false {db : DB} {e : Option String}
    (h : e = none ∨ ∀ x ∈ db.users, x.email ≠ e) : dupEmailCheck db e = false := by
  cases e with
  | none => rfl
  | some v =>
    rcases h with h | h
    · simp at h
    · simp only [dupEmailCheck, List.any_eq_false]
      intro x hx
      simpa using h x hx


/-- register_user succeeds and appends exactly one row when neither
uniqueness constraint is violated. -/
theorem register_user_ok (kdf : Kdf) (salt : List Char) (db : DB)
    (username password : String) (email : Option String) (now : Nat)
    (hname : db.users.any (fun u => u.username == username) = false)
    (hmail : dupEmailCheck db email = false) :
    register_user kdf salt db username password email now =
      ((true, "User registered successfully"),
       { db with users := db.users ++
          [⟨nextUserId db, username, hash_password kdf salt password.toList, email,
            now, none, true⟩] }) := by
  unfold register_user
  rw [hname, hmail]
  rfl

/-- register_user fails and leaves the state unchanged when the username is
already present. -/
theorem register_user_dup (kdf : Kdf) (salt : List Char) (db : DB)
    (username password : String) (email : Option String) (now : Nat)
    (hname : db.users.any (fun u => u.username == username) = true) :
    register_user kdf salt db username password email now =
      ((false, "Username already exists"), db) := by
  unfold register_user
  rw [hname]
  rfl



/-- signup surfaces a duplicate-username register failure as HTTP 400 when
the inputs pass the validation checks. -/
theorem signup_dup {kdf : Kdf} {salt : List Char} {db : DB}
    {username password : String} {now : Nat}
    (ht : pyStrip username = username) (htp : pyStrip password = password)
    (hlu : 3 ≤ username.length) (hlp : 6 ≤ password.length)
    (hname : db.users.any (fun u => u.username == username) = true) :
    signup kdf salt db username password none now =
      ((400, .err "Username already exists"), db) := by
  have hr := register_user_dup kdf salt db username password none now hname
  have hune : username ≠ "" := by
    intro h
    rw [h] at hlu
    simp at hlu
  have hpne : password ≠ "" := by
    intro h
    rw [h] at hlp
    simp at hlp
  have h6 : ¬ password.length < 6 := by omega
  have h3 : ¬ username.length < 3 := by omega
  simp [signup, ht, htp, hune, hpne, h6, h3, hr]

/-- Claim C6: two distinct usernames both register; re-registering the first
username afterwards fails with the duplicate error detected by the storage
layer's uniqueness check, the store is left unchanged (no second row with
that username is created), and the signup endpoint surfaces the failure as
HTTP 400. -/
theorem register_duplicate_username_rejected (kdf : Kdf) (s1 s2 s3 : List Char)
    (db : DB) (u1 u2 p1 p2 p3 : String) (e1 e2 : Option String) (n1 n2 n3 : Nat)
    (hne : u1 ≠ u2)
    (h1 : ∀ x ∈ db.users, x.username ≠ u1)
    (h2 : ∀ x ∈ db.users, x.username ≠ u2)
    (he1 : e1 = none ∨ ∀ x ∈ db.users, x.email ≠ e1)
    (he2 : e2 = none ∨ (e2 ≠ e1 ∧ ∀ x ∈ db.users, x.email ≠ e2))
    (ht1 : pyStrip u1 = u1) (ht3 : pyStrip p3 = p3)
    (hl1 : 3 ≤ u1.length) (hl3 : 6 ≤ p3.length) :
    (register_user kdf s1 db u1 p1 e1 n1).1 = (true, "User registered successfully") ∧
    (register_user kdf s2 (register_user kdf s1 db u1 p1 e1 n1).2 u2 p2 e2 n2).1 =
      (true, "User registered successfully") ∧
    (register_user kdf s3
        (register_user kdf s2 (register_user kdf s1 db u1 p1 e1 n1).2 u2 p2 e2 n2).2
        u1 p3 e1 n3 =
      ((false, "Username already exists"),
       (register_user kdf s2 (register_user kdf s1 db u1 p1 e1 n1).2 u2 p2 e2 n2).2)) ∧
    (signup kdf s3
        (register_user kdf s2 (register_user kdf s1 db u1 p1 e1 n1).2 u2 p2 e2 n2).2
        u1 p3 none n3 =
      ((400, .err "Username already exists"),
       (register_user kdf s2 (register_user kdf s1 db u1 p1 e1 n1).2 u2 p2 e2 n2).2)) ∧
    ((register_user kdf s2 (register_user kdf s1 db u1 p1 e1 n1).2 u2 p2 e2 n2).2.users.filter
        (fun x => x.username == u1)).length = 1 := by
  have ha1 : db.users.any (fun x => x.username == u1) = false := by
    simp only [List.any_eq_false]
    intro x hx
    simpa using h1 x hx
  have hm1 := dupEmailCheck_false he1
  have hr1 := register_user_ok kdf s1 db u1 p1 e1 n1 ha1 hm1
  have hc1 : (register_user kdf s1 db u1 p1 e1 n1).1 = (true, "User registered successfully") := by
    rw [hr1]
  have hAusers : (register_user kdf s1 db u1 p1 e1 n1).2.users =
      db.users ++ [⟨nextUserId db, u1, hash_password kdf s1 p1.toList, e1, n1, none, true⟩] := by
    rw [hr1]
  have ha2 : (register_user kdf s1 db u1 p1 e1 n1).2.users.any
      (fun x => x.username == u2) = false := by
    rw [hAusers]
    have hb : (u1 == u2) = false := beq_eq_false_iff_ne.mpr hne
    have hdbany : (db.users.any fun x => x.username == u2) = false := by
      simp only [List.any_eq_false]
      intro x hx
      simpa using h2 x hx
    simp [List.any_append, hdbany, hb]
  have hm2 : dupEmailCheck (register_user kdf s1 db u1 p1 e1 n1).2 e2 = false := by
    cases e2 with
    | none => rfl
    | some v =>
      rcases he2 with h | ⟨hne2, hall⟩
      · simp at h
      · have hv : (e1 == some v) = false := by
          refine beq_eq_false_iff_ne.mpr ?_
          intro h
          exact hne2 (by rw [← h])
        have hdbany : (db.users.any fun x => x.email == some v) = false := by
          simp only [List.any_eq_false]
          intro x hx
          simpa using hall x hx
        simp only [dupEmailCheck]
        rw [hAusers]
        simp [List.any_append, hdbany, hv]
  have hr2 := register_user_ok kdf s2 (register_user kdf s1 db u1 p1 e1 n1).2 u2 p2 e2 n2 ha2 hm2
  have hc2 : (register_user kdf s2 (register_user kdf s1 db u1 p1 e1 n1).2 u2 p2 e2 n2).1 =
      (true, "User registered successfully") := by
    rw [hr2]
  have hBusers : (register_user kdf s2 (register_user kdf s1 db u1 p1 e1 n1).2 u2 p2 e2 n2).2.users =
      (register_user kdf s1 db u1 p1 e1 n1).2.users ++
      [⟨nextUserId (register_user kdf s1 db u1 p1 e1 n1).2, u2,
        hash_password kdf s2 p2.toList, e2, n2, none, true⟩] := by
    rw [hr2]
  have hdup : (register_user kdf s2 (register_user kdf s1 db u1 p1 e1 n1).2 u2 p2 e2 n2).2.users.any
      (fun x => x.username == u1) = true := by
    rw [hBusers, hAusers]
    simp [List.any_append]
  have hr3 := register_user_dup kdf s3
    (register_user kdf s2 (register_user kdf s1 db u1 p1 e1 n1).2 u2 p2 e2 n2).2
    u1 p3 e1 n3 hdup
  refine ⟨hc1, hc2, hr3, signup_dup ht1 ht3 hl1 hl3 hdup, ?_⟩
  rw [hBusers, hAusers]
  have hb21 : (u2 == u1) = false := beq_eq_false_iff_ne.mpr (Ne.symm hne)
  have hfilter0 : db.users.filter (fun x => x.username == u1) = [] := by
    rw [List.filter_eq_nil_iff]
    intro x hx
    simpa using h1 x hx
  simp [List.filter_append, hfilter0, hb21]

theorem register_duplicate_username_rejected_witness :
    (register_user tKdf ['s'] emptyDB "alice" "pw1" none 1).1 =
      (true, "User registered successfully") :=
  (register_duplicate_username_rejected tKdf ['s'] ['s'] ['s'] emptyDB
    "alice" "bobby" "pw1" "pw2" "pw3456" none none 1 2 3
    (by decide) (by decide) (by decide) (by decide) (by decide)
    (by decide) (by decide) (by decide) (by decide)).1

/-- find? through a map, when the predicate factors through the mapping. -/
theorem find_map_eq {α β : Type} (f : α → β) (p : β → Bool) (q : α → Bool)
    (l : List α) (h : ∀ x, p (f x) = q x) :
    (l.map f).find? p = (l.find? q).map f := by
  rw [List.find?_map]
  have hq : (p ∘ f) = q := funext h
  rw [hq]

/-- Inversion of a successful login_user call. -/
theorem login_user_true_inv {kdf : Kdf} {db : DB} {username password : String}
    {now : Nat} {tk : String} {msg : String} {t : Option String} {db2 : DB}
    (h : login_user kdf db username password now tk = ((true, msg, t), db2)) :
    ∃ u, db.users.find? (fun x => x.username == username && x.is_active) = some u ∧
      verify_password kdf u.password_hash password.toList = true ∧
      db.sessions.any (fun s => s.token == tk) = false ∧
      msg = "Login successful" ∧ t = some tk ∧
      db2 = { db with
        users := db.users.map (fun x =>
          if x.id == u.id then { x with last_login := some now } else x),
        sessions := db.sessions ++ [⟨nextSessionId db, u.id, tk, now, none, true⟩] } := by
  unfold login_user at h
  cases hfind : db.users.find? (fun x => x.username == username && x.is_active) with
  | none =>
    rw [hfind] at h
    simp at h
  | some u =>
    rw [hfind] at h
    dsimp only at h
    split at h
    · split at h
      · simp at h
      · refine ⟨u, rfl, ?_, ?_, ?_, ?_, ?_⟩
        · assumption
        · rename_i hdup
          exact Bool.not_eq_true _ ▸ Bool.eq_false_iff.mpr hdup
        · simp only [Prod.mk.injEq] at h
          exact h.1.2.1.symm
        · simp only [Prod.mk.injEq] at h
          exact h.1.2.2.symm
        · simp only [Prod.mk.injEq] at h
          exact h.2.symm
    · simp at h

/-- Claim C4, stated in three parts: (a) a login answered with a success
body resolves, via the returned token, to the same user id and username that
the response carried; (b) a token that no session holds fails verification;
(c) session tokens are unique, so a token identifies at most one session
row and hence one owning user. -/
theorem token_lifecycle (kdf : Kdf) (db : DB) (username password : String)
    (now : Nat) (tk : String)
    (hids : (db.users.map (fun x => x.id)).Nodup)
    (hnames : (db.users.map (fun x => x.username)).Nodup)
    (ht : pyStrip username = username) (htp : pyStrip password = password) :
    (∀ msg t uid un,
      (login kdf db username password now tk).1.2 = LoginResp.ok msg t uid un →
      t = some tk ∧
      verify_session_token (login kdf db username password now tk).2 tk =
        (true, some ⟨uid, un⟩)) ∧
    (∀ t2, db.sessions.any (fun s => s.token == t2) = false →
      verify_session_token db t2 = (false, none)) ∧
    ((db.sessions.map (fun s => s.token)).Nodup →
      ∀ s1 ∈ db.sessions, ∀ s2 ∈ db.sessions, s1.token = s2.token → s1 = s2) := by
  refine ⟨?_, ?_, ?_⟩
  · intro msg t uid un hok
    by_cases hempty : username = "" ∨ password = ""
    · have hlv : login kdf db username password now tk =
          ((400, .err "Username and password required"), db) := by
        simp [login, ht, htp, hempty]
      rw [hlv] at hok
      simp at hok
    · rcases hlu : login_user kdf db username password now tk with ⟨⟨succ, msg2, t2⟩, db2⟩
      cases succ with
      | false =>
        have hlv : login kdf db username password now tk = ((401, .err msg2), db2) := by
          simp [login, ht, htp, hempty, hlu]
        rw [hlv] at hok
        simp at hok
      | true =>
        obtain ⟨u, hfind, hpw, hfr, hmsg, ht2, hdb2⟩ := login_user_true_inv hlu
        have hu_mem : u ∈ db.users := List.mem_of_find?_eq_some hfind
        have hu_pred := List.find?_some hfind
        have hu_name : u.username = username := by
          simp only [Bool.and_eq_true, beq_iff_eq] at hu_pred
          exact hu_pred.1
        have hnameF : ∀ x : UserRow,
            ((if x.id == u.id then { x with last_login := some now } else x).username ==
              username) = (x.username == username) := by
          intro x
          by_cases hx : (x.id == u.id) = true <;> simp [hx]
        have hfindname : db.users.find? (fun x => x.username == username) = some u := by
          apply find_mem_unique hu_mem
          · simp [hu_name]
          · intro b hb hpb
            apply List.inj_on_of_nodup_map hnames hb hu_mem
            rw [hu_name]
            simpa using hpb
        have hguser : get_user_by_username db2 username =
            some { u with last_login := some now } := by
          rw [hdb2]
          unfold get_user_by_username
          dsimp only
          rw [find_map_eq _ _ _ _ hnameF, hfindname]
          simp
        have hlv : login kdf db username password now tk =
            ((200, .ok msg2 t2 (({ u with last_login := some now } : UserRow)).id username), db2) := by
          simp [login, ht, htp, hempty, hlu, hguser]
        rw [hlv] at hok
        simp only [LoginResp.ok.injEq] at hok
        obtain ⟨hmsg2, ht2', huid, hun⟩ := hok
        refine ⟨by rw [← ht2', ht2], ?_⟩
        have hsessfind : db2.sessions.find? (fun s => s.token == tk && s.is_valid) =
            some ⟨nextSessionId db, u.id, tk, now, none, true⟩ := by
          rw [hdb2]
          dsimp only
          rw [List.find?_append]
          have hpre : db.sessions.find? (fun s => s.token == tk && s.is_valid) = none := by
            rw [List.find?_eq_none]
            intro x hx
            have := List.any_eq_false.mp hfr x hx
            simp only [Bool.and_eq_true, beq_iff_eq]
            rintro ⟨h1, _⟩
            exact this (by simp [h1])
          rw [hpre]
          simp
        have hidF : ∀ x : UserRow,
            ((if x.id == u.id then { x with last_login := some now } else x).id ==
              u.id) = (x.id == u.id) := by
          intro x
          by_cases hx : (x.id == u.id) = true <;> simp [hx]
        have hfindid : db.users.find? (fun x => x.id == u.id) = some u := by
          apply find_mem_unique hu_mem
          · simp
          · intro b hb hpb
            apply List.inj_on_of_nodup_map hids hb hu_mem
            simpa using hpb
        have husersfind : db2.users.find? (fun x => x.id == u.id) =
            some { u with last_login := some now } := by
          rw [hdb2]
          dsimp only
          rw [find_map_eq _ _ _ _ hidF, hfindid]
          simp
        rw [hlv]
        dsimp only
        unfold verify_session_token
        rw [hsessfind]
        dsimp only
        rw [husersfind]
        rw [← huid, ← hun, hu_name]
      -- end true case
  · intro t2 hany
    unfold verify_session_token
    have hnone : db.sessions.find? (fun s => s.token == t2 && s.is_valid) = none := by
      rw [List.find?_eq_none]
      intro x hx
      have := List.any_eq_false.mp hany x hx
      simp only [Bool.and_eq_true, beq_iff_eq]
      rintro ⟨h1, _⟩
      exact this (by simp [h1])
    rw [hnone]
  · intro htok s1 hs1 s2 hs2 heq
    exact List.inj_on_of_nodup_map htok hs1 hs2 heq

theorem token_lifecycle_witness :
    verify_session_token (login tKdf dbE "alice" "secret1" 5 "tok1").2 "tok1" =
      (true, some ⟨1, "alice"⟩) :=
  ((token_lifecycle tKdf dbE "alice" "secret1" 5 "tok1"
      (by decide) (by decide) (by decide) (by decide)).1
    "Login successful" (some "tok1") 1 "alice" (by decide)).2

/-- Claim C7: get_messages returns exactly the unread messages addressed to
the caller (as a permutation of ids of the rows selected by
recipient_id = caller AND is_read = 0), ordered newest-first by creation
time, and returns the state unchanged — no read-state mutation. -/
theorem get_messages_unread_inbox (db : DB) (token : String) (u : SessionUser)
    (hver : verify_session_token db token = (true, some u))
    (hfk : ∀ m ∈ unreadRows db u.id, (senderOf db m).isSome = true) :
    (get_messages db token).2 = db ∧
    ∃ entries, (get_messages db token).1 = (200, .msgs entries) ∧
      entries.Pairwise (fun a b => b.timestamp ≤ a.timestamp) ∧
      (entries.map (fun e => e.id)).Perm ((unreadRows db u.id).map (fun m => m.id)) := by
  unfold get_messages
  rw [hver]
  dsimp only
  refine ⟨rfl, _, rfl, ?_, ?_⟩
  · rw [List.pairwise_map]
    exact newestFirst_pairwise (joinSender db (unreadRows db u.id))
  · rw [List.map_map]
    have hperm := (newestFirst_perm (joinSender db (unreadRows db u.id))).map
      (fun r : MessageRow × String => r.1.id)
    have hJ : (joinSender db (unreadRows db u.id)).map
        (fun r : MessageRow × String => r.1.id) =
        (unreadRows db u.id).map (fun m => m.id) := by
      conv_rhs => rw [← joinSender_map_fst db hfk]
      rw [List.map_map]
      rfl
    rw [hJ] at hperm
    exact hperm

theorem get_messages_unread_inbox_witness :
    (get_messages dbC "tA").2 = dbC :=
  (get_messages_unread_inbox dbC "tA" ⟨1, "alice"⟩ (by decide) (by decide)).1

/-- Claim C5: for every limit and offset, get_conversation_v2 answers 200
with the bidirectional conversation selected newest-first, reversed to
oldest-first (the response list is ascending in creation time), the total
count, and has_more true exactly when offset + limit < total_count; and with
limit 1 the pages at offsets 0 and 1 are the two most recent messages of the
conversation with no overlap whenever at least two exist (creation times
assumed distinct, as SQLite leaves tie order unspecified). -/
theorem conversation_pagination (db : DB) (rname token : String)
    (u : SessionUser) (r : UserRow)
    (hver : verify_session_token db token = (true, some u))
    (hrcpt : get_user_by_username db rname = some r)
    (hfk : ∀ m ∈ conversationRows db u.id r.id, (senderOf db m).isSome = true)
    (hts : ((conversationRows db u.id r.id).map (fun m => m.created_at)).Nodup) :
    (∀ limit offset, ∃ entries hmore,
      get_conversation_v2 db rname token limit offset =
        (200, .conv entries ((conversationRows db u.id r.id).length) hmore) ∧
      (hmore = true ↔ offset + limit < (conversationRows db u.id r.id).length) ∧
      entries.Pairwise (fun a b => a.timestamp ≤ b.timestamp)) ∧
    (2 ≤ (conversationRows db u.id r.id).length →
      ∃ e0 e1 hmore1,
        (get_conversation_v2 db rname token 1 0).2 =
          ConvResp.conv [e0] ((conversationRows db u.id r.id).length) true ∧
        (get_conversation_v2 db rname token 1 1).2 =
          ConvResp.conv [e1] ((conversationRows db u.id r.id).length) hmore1 ∧
        e1.timestamp < e0.timestamp ∧
        (∃ m0 ∈ conversationRows db u.id r.id,
          e0.id = m0.id ∧ e0.timestamp = m0.created_at) ∧
        (∃ m1 ∈ conversationRows db u.id r.id,
          e1.id = m1.id ∧ e1.timestamp = m1.created_at) ∧
        (∀ m ∈ conversationRows db u.id r.id, m.created_at ≤ e0.timestamp) ∧
        (∀ m ∈ conversationRows db u.id r.id,
          m.created_at ≠ e0.timestamp → m.created_at ≤ e1.timestamp)) := by
  have hgc : ∀ limit offset,
      get_conversation_v2 db rname token limit offset =
        (200, .conv
          ((((newestFirst (joinSender db (conversationRows db u.id r.id))).drop offset).take limit).map
            (fun x => ⟨x.1.id, x.2, x.2 == u.username, x.1.message, x.1.is_read, x.1.created_at⟩)).reverse
          ((conversationRows db u.id r.id).length)
          (decide (offset + limit < (conversationRows db u.id r.id).length))) := by
    intro limit offset
    unfold get_conversation_v2
    rw [hver]
    dsimp only
    rw [hrcpt]
  have hJts : (joinSender db (conversationRows db u.id r.id)).map
      (fun x : MessageRow × String => x.1.created_at) =
      (conversationRows db u.id r.id).map (fun m => m.created_at) := by
    conv_rhs => rw [← joinSender_map_fst db hfk]
    rw [List.map_map]
    rfl
  have hlen : (newestFirst (joinSender db (conversationRows db u.id r.id))).length =
      (conversationRows db u.id r.id).length := by
    have h1 : (newestFirst (joinSender db (conversationRows db u.id r.id))).length =
        (joinSender db (conversationRows db u.id r.id)).length := by
      unfold newestFirst
      exact List.length_mergeSort _
    rw [h1]
    conv_rhs => rw [← joinSender_map_fst db hfk]
    rw [List.length_map]
  refine ⟨?_, ?_⟩
  · intro limit offset
    refine ⟨_, _, hgc limit offset, by simp, ?_⟩
    rw [List.pairwise_reverse, List.pairwise_map]
    have hsub : List.Sublist
        (((newestFirst (joinSender db (conversationRows db u.id r.id))).drop offset).take limit)
        (newestFirst (joinSender db (conversationRows db u.id r.id))) :=
      (List.take_sublist _ _).trans (List.drop_sublist _ _)
    exact (List.Pairwise.sublist hsub (newestFirst_pairwise _)).imp (fun h => h)
  · intro h2
    have hlenL : 2 ≤ (newestFirst (joinSender db (conversationRows db u.id r.id))).length := by
      rw [hlen]
      exact h2
    obtain ⟨x0, x1, rest, hL⟩ : ∃ x0 x1 rest,
        newestFirst (joinSender db (conversationRows db u.id r.id)) = x0 :: x1 :: rest := by
      cases hL0 : newestFirst (joinSender db (conversationRows db u.id r.id)) with
      | nil => rw [hL0] at hlenL; simp at hlenL
      | cons a t =>
        cases t with
        | nil => rw [hL0] at hlenL; simp at hlenL
        | cons b t2 => exact ⟨a, b, t2, rfl⟩
    have hsortedL := newestFirst_pairwise (joinSender db (conversationRows db u.id r.id))
    rw [hL] at hsortedL
    have hx0all : ∀ y ∈ x1 :: rest, y.1.created_at ≤ x0.1.created_at :=
      (List.pairwise_cons.mp hsortedL).1
    have hrestP := (List.pairwise_cons.mp hsortedL).2
    have hx1all : ∀ y ∈ rest, y.1.created_at ≤ x1.1.created_at :=
      (List.pairwise_cons.mp hrestP).1
    have hLts : ((newestFirst (joinSender db (conversationRows db u.id r.id))).map
        (fun x : MessageRow × String => x.1.created_at)).Nodup := by
      have hp : (List.map (fun x : MessageRow × String => x.1.created_at)
          (newestFirst (joinSender db (conversationRows db u.id r.id)))).Perm
          (List.map (fun x : MessageRow × String => x.1.created_at)
            (joinSender db (conversationRows db u.id r.id))) :=
        (newestFirst_perm _).map _
      rw [hJts] at hp
      exact hp.nodup_iff.mpr hts
    rw [hL] at hLts
    have hne01 : x0.1.created_at ≠ x1.1.created_at := by
      have hn := (List.nodup_cons.mp hLts).1
      simp only [List.map_cons] at hn
      intro h
      exact hn (by rw [h]; exact List.mem_cons_self _ _)
    have hmem_rows : ∀ m ∈ conversationRows db u.id r.id,
        ∃ pr, pr ∈ x0 :: x1 :: rest ∧ pr.1 = m := by
      intro m hm
      have hm2 : m ∈ (joinSender db (conversationRows db u.id r.id)).map Prod.fst := by
        rw [joinSender_map_fst db hfk]
        exact hm
      obtain ⟨pr, hpr, hpre⟩ := List.mem_map.mp hm2
      refine ⟨pr, ?_, hpre⟩
      rw [← hL]
      exact ((newestFirst_perm _).mem_iff).mpr hpr
    have hfst_mem : ∀ pr : MessageRow × String, pr ∈ x0 :: x1 :: rest →
        pr.1 ∈ conversationRows db u.id r.id := by
      intro pr hpr
      have hpr2 : pr ∈ joinSender db (conversationRows db u.id r.id) := by
        rw [← (newestFirst_perm _).mem_iff, hL]
        exact hpr
      rw [← joinSender_map_fst db hfk]
      exact List.mem_map_of_mem _ hpr2
    have h1lt : 0 + 1 < (conversationRows db u.id r.id).length := by omega
    refine ⟨⟨x0.1.id, x0.2, x0.2 == u.username, x0.1.message, x0.1.is_read, x0.1.created_at⟩,
      ⟨x1.1.id, x1.2, x1.2 == u.username, x1.1.message, x1.1.is_read, x1.1.created_at⟩,
      decide (1 + 1 < (conversationRows db u.id r.id).length), ?_, ?_, ?_, ?_, ?_, ?_, ?_⟩
    · rw [hgc 1 0, hL]
      simp [h1lt]
    · rw [hgc 1 1, hL]
      simp
    · exact Nat.lt_of_le_of_ne (hx0all x1 (List.mem_cons_self _ _)) (fun h => hne01 h.symm)
    · exact ⟨x0.1, hfst_mem x0 (List.mem_cons_self _ _), rfl, rfl⟩
    · exact ⟨x1.1, hfst_mem x1 (List.mem_cons_of_mem _ (List.mem_cons_self _ _)), rfl, rfl⟩
    · intro m hm
      obtain ⟨pr, hprmem, hpre⟩ := hmem_rows m hm
      rcases List.mem_cons.mp hprmem with heq | hmem2
      · rw [← hpre, heq]
      · rw [← hpre]
        exact hx0all pr hmem2
    · intro m hm hnem
      obtain ⟨pr, hprmem, hpre⟩ := hmem_rows m hm
      rcases List.mem_cons.mp hprmem with heq | hmem2
      · exact absurd (by rw [← hpre, heq]) hnem
      · rcases List.mem_cons.mp hmem2 with heq1 | hmem3
        · rw [← hpre, heq1]
        · rw [← hpre]
          exact hx1all pr hmem3

theorem conversation_pagination_witness :
    (get_conversation_v2 dbC "bob" "tA" 1 0).1 = 200 := by
  obtain ⟨entries, hmore, hresp, -, -⟩ :=
    (conversation_pagination dbC "bob" "tA" ⟨1, "alice"⟩
      ⟨2, "bob", ['h'], none, 0, none, true⟩
      (by decide) (by decide) (by decide) (by decide)).1 1 0
  rw [hresp]
